import Mathlib

/-!
Verification development for the goreverseproxy repository.

The Go source is shallowly embedded: pure functions become Lean functions,
the stateful response-writer wrapper becomes explicit state passing over a
step relation on operation lists, Go machine integers become Int/Nat (all
arithmetic here stays far from overflow), and fallible code returns Except.
-/

/-- Policy snapshot, from `config.RevProxyConfig` (config package).  The Go
struct keeps both the ordered lists from YAML and derived membership maps;
`loadConfig` builds each map from the corresponding list, so map membership
coincides with list membership and we embed the sets as lists. -/
structure RevProxyConfig where
  targetUrl : String
  targetPort : String
  blockedHeaders : List String
  blockedQueryParams : List String
  maskedNeededKeys : List String

/-- `RevProxyConfig.IsHeaderBlocked`: membership of the (case-sensitive)
header name in the blocked-headers map. -/
def RevProxyConfig.IsHeaderBlocked (c : RevProxyConfig) (header : String) : Bool :=
  c.blockedHeaders.contains header

/-- `RevProxyConfig.IsQueryParamBlocked`: membership of the query-parameter
name in the blocked-query-params map. -/
def RevProxyConfig.IsQueryParamBlocked (c : RevProxyConfig) (param : String) : Bool :=
  c.blockedQueryParams.contains param

/-- A single-consumption request body stream (`req.Body`).  Draining it with
`io.ReadAll` yields `content`; if `readErr` is set the drain ends in an I/O
error after delivering nothing usable to the caller of ReadAll. -/
structure BodyStream where
  content : List UInt8
  readErr : Bool

/-- Inbound `*http.Request`, restricted to the attributes the proxy reads:
method, URL path, raw query, parsed query parameters (`req.URL.Query()`),
the header map (name -> values), `ContentLength`, `Host`, and the body. -/
structure HttpRequest where
  method : String
  path : String
  rawQuery : String
  host : String
  contentLength : Int
  headers : List (String × List String)
  queryParams : List (String × List String)
  body : BodyStream

/-- The header loop of `shouldBlockRequest`: `for header := range req.Header`
with an early `return true` when `config.IsHeaderBlocked(header)`. -/
def anyHeaderBlocked (cfg : RevProxyConfig) : List (String × List String) → Bool
  | [] => false
  | (name, _) :: rest =>
    if cfg.IsHeaderBlocked name then true else anyHeaderBlocked cfg rest

/-- The query-parameter loop of `shouldBlockRequest`: `for param := range
req.URL.Query()` with an early `return true` on `IsQueryParamBlocked`. -/
def anyQueryParamBlocked (cfg : RevProxyConfig) : List (String × List String) → Bool
  | [] => false
  | (name, _) :: rest =>
    if cfg.IsQueryParamBlocked name then true else anyQueryParamBlocked cfg rest

/-- `shouldBlockRequest` (main.go): check the header loop, then the
query-parameter loop, else return false. -/
def shouldBlockRequest (cfg : RevProxyConfig) (req : HttpRequest) : Bool :=
  if anyHeaderBlocked cfg req.headers then true
  else if anyQueryParamBlocked cfg req.queryParams then true
  else false

/-- Observable outcome of `RevProxy.ServeHTTP`: either an error response is
written locally, or the request is handed to the forwarding engine
(`rp.proxy.ServeHTTP`) with `req.Host` set to the target host. -/
inductive ServeOutcome where
  | blocked (status : Int) (body : String)
  | forwarded (host : String)
deriving DecidableEq

/-- The fixed message passed to `http.Error` in `RevProxy.ServeHTTP`. -/
def blockedMessage : String := "Request blocked by proxy rules"

/-- `net/http.Error(w, msg, code)`: writes the status code, then writes the
message with `fmt.Fprintln`, which appends a trailing newline to the body. -/
def httpError (msg : String) (code : Int) : ServeOutcome :=
  ServeOutcome.blocked code (msg ++ "\n")

/-- `RevProxy.ServeHTTP` (main.go): block GET requests that match the gate
(`http.StatusForbidden` = 403, `http.MethodGet` = "GET"); otherwise set
`req.Host` to the target host and invoke the forwarding engine. -/
def serveHTTP (cfg : RevProxyConfig) (targetHost : String) (req : HttpRequest) : ServeOutcome :=
  if req.method == "GET" && shouldBlockRequest cfg req then
    httpError blockedMessage 403
  else
    ServeOutcome.forwarded targetHost

/-- Whether a `ServeOutcome` is a locally written error response. -/
def isBlockedOutcome : ServeOutcome → Bool
  | ServeOutcome.blocked _ _ => true
  | ServeOutcome.forwarded _ => false

/-- `responseData` (middleware.go): status code, cumulative size, and the
capture buffer (`body *bytes.Buffer`). -/
structure ResponseData where
  status : Int
  size : Nat
  body : List UInt8
deriving DecidableEq

/-- The real `http.ResponseWriter` underneath the wrapper, observed through
the two intercepted operations: the status codes forwarded to it and the
bytes it actually delivered to the caller. -/
structure UnderlyingWriter where
  statusCalls : List Int
  delivered : List UInt8
deriving DecidableEq

/-- State of one `loggingResponseWriter`: the wrapped writer plus the
per-request `responseData`. -/
structure LrwState where
  underlying : UnderlyingWriter
  responseData : ResponseData
deriving DecidableEq

/-- A call to the real writer's `Write(b)`.  Per the `io.Writer` contract it
reports some count `reported ≤ len(b)` and delivers exactly the first
`reported` bytes of `b` to the caller. -/
def underlyingWrite (u : UnderlyingWriter) (b : List UInt8) (reported : Nat) :
    UnderlyingWriter × Nat :=
  ({ u with delivered := u.delivered ++ b.take reported }, reported)

/-- `loggingResponseWriter.Write` (middleware.go): forward to the real
writer, add the reported count to `size`, append the full input slice `b`
to the capture buffer, and return the reported count. -/
def lrwWrite (s : LrwState) (b : List UInt8) (reported : Nat) : LrwState × Nat :=
  let r := underlyingWrite s.underlying b reported
  ({ underlying := r.1,
     responseData := { s.responseData with
                        size := s.responseData.size + r.2,
                        body := s.responseData.body ++ b } }, r.2)

/-- `loggingResponseWriter.WriteHeader` (middleware.go): forward the call
unchanged to the real writer, then assign the code to `responseData.status`. -/
def lrwWriteHeader (s : LrwState) (code : Int) : LrwState :=
  { underlying := { s.underlying with statusCalls := s.underlying.statusCalls ++ [code] },
    responseData := { s.responseData with status := code } }

/-- One operation a downstream handler performs on the wrapping writer.
For a `write`, `reported` is the count the underlying writer returns. -/
inductive WriterOp where
  | writeHeader (code : Int)
  | write (chunk : List UInt8) (reported : Nat)
deriving DecidableEq

/-- Run a sequence of handler operations against the wrapper state. -/
def runOps (s : LrwState) : List WriterOp → LrwState
  | [] => s
  | WriterOp.writeHeader c :: ops => runOps (lrwWriteHeader s c) ops
  | WriterOp.write b n :: ops => runOps (lrwWrite s b n).1 ops

/-- Initial wrapper state built in `Logger.ServeHTTP`: status 0, size 0,
empty capture buffer, fresh underlying writer. -/
def initLrw : LrwState :=
  { underlying := { statusCalls := [], delivered := [] },
    responseData := { status := 0, size := 0, body := [] } }

/-- The status codes written by a sequence of operations, in order. -/
def opsStatusCodes : List WriterOp → List Int
  | [] => []
  | WriterOp.writeHeader c :: ops => c :: opsStatusCodes ops
  | WriterOp.write _ _ :: ops => opsStatusCodes ops

/-- The last element of a list, or a default when the list is empty. -/
def lastOr (d : Int) : List Int → Int
  | [] => d
  | c :: cs => lastOr c cs

/-- Sum of the byte counts the underlying writer reported. -/
def sumReported : List WriterOp → Nat
  | [] => 0
  | WriterOp.writeHeader _ :: ops => sumReported ops
  | WriterOp.write _ n :: ops => n + sumReported ops

/-- Concatenation of the full chunks passed to `Write`. -/
def opsChunks : List WriterOp → List UInt8
  | [] => []
  | WriterOp.writeHeader _ :: ops => opsChunks ops
  | WriterOp.write b _ :: ops => b ++ opsChunks ops

/-- Concatenation of the bytes the underlying writer actually delivered. -/
def opsDelivered : List WriterOp → List UInt8
  | [] => []
  | WriterOp.writeHeader _ :: ops => opsDelivered ops
  | WriterOp.write b n :: ops => b.take n ++ opsDelivered ops

/-- Whether every write was complete: the underlying writer reported exactly
the length of the chunk it was given. -/
def opsAllComplete : List WriterOp → Bool
  | [] => true
  | WriterOp.writeHeader _ :: ops => opsAllComplete ops
  | WriterOp.write b n :: ops => (n == b.length) && opsAllComplete ops

/-- One structured log record emitted by the middleware: either an
`slog.Error` event, the request-received record, or the response-completed
record (body fields carry the captured bytes; Go converts them to string
byte-for-byte). -/
inductive LogEvent where
  | errorEvent (msg : String)
  | requestRecord (method path query headersJson : String) (body : List UInt8)
  | responseRecord (status : Int) (size : Nat) (durationMs : Int)
      (headersJson : String) (body : List UInt8)
deriving DecidableEq

/-- The replaceable `jsonMarshal` package variable of the middleware
(`var jsonMarshal = json.Marshal`); it serializes a header map to JSON text
or fails.  It is passed explicitly since tests swap it out. -/
def HeadersMarshal : Type := List (String × List String) → Except String String

/-- `composeRequestHeaders` (middleware.go): clone the request headers into
a plain map, then overwrite the `Content-Length` entry with
`strconv.Itoa(int(req.ContentLength))` and the `Host` entry with `req.Host`.
The map is embedded as a list; the Go map assignments are modelled by
filtering out any prior entries for the two keys and appending the new
ones. -/
def composeRequestHeaders (req : HttpRequest) : List (String × List String) :=
  (req.headers.filter (fun kv => !(kv.1 == "Content-Length") && !(kv.1 == "Host"))) ++
    [("Content-Length", [toString req.contentLength]), ("Host", [req.host])]

/-- The body splice in `recordRequest`: after the tee-drain succeeds,
`req.Body = io.NopCloser(copy)` points the body at the copied buffer, an
error-free stream holding the full original content. -/
def spliceBody (req : HttpRequest) : HttpRequest :=
  { req with body := { content := req.body.content, readErr := false } }

/-- `recordRequest` (middleware.go): tee the body into a fresh buffer while
draining it with `io.ReadAll`; on a read error, log an error event and
return (the body is left as the drained, erroring tee stream).  Otherwise
splice `req.Body` to the copied buffer, marshal the composed headers; on a
marshal error, log an error event and return without emitting the request
record.  On success emit the request record.  Returns the emitted events
and the request as the downstream handler sees it. -/
def recordRequest (marshal : HeadersMarshal) (req : HttpRequest) :
    List LogEvent × HttpRequest :=
  if req.body.readErr then
    ([LogEvent.errorEvent "Error reading from request body"],
     { req with body := { content := [], readErr := true } })
  else
    match marshal (composeRequestHeaders (spliceBody req)) with
    | Except.error _ => ([LogEvent.errorEvent "jsonMarshal header failed"], spliceBody req)
    | Except.ok headersJson =>
      ([LogEvent.requestRecord (spliceBody req).method (spliceBody req).path
          (spliceBody req).rawQuery headersJson req.body.content], spliceBody req)

/-- `recordResponse` (middleware.go): marshal the response headers; on a
marshal error log an error event and fall through, so the completion record
is still emitted with the nil bytes as an empty headers string.  The record
carries the captured status, size and body. -/
def recordResponse (marshal : HeadersMarshal)
    (headers : List (String × List String)) (rd : ResponseData) (durationMs : Int) :
    List LogEvent :=
  match marshal headers with
  | Except.error _ =>
    [LogEvent.errorEvent "jsonMarshal header failed",
     LogEvent.responseRecord rd.status rd.size durationMs "" rd.body]
  | Except.ok headersJson =>
    [LogEvent.responseRecord rd.status rd.size durationMs headersJson rd.body]

/-- Whether a list of log events contains a request-received record. -/
def hasRequestRecord : List LogEvent → Bool
  | [] => false
  | LogEvent.requestRecord _ _ _ _ _ :: _ => true
  | _ :: es => hasRequestRecord es

/-- A marshal stub that always fails, mirroring the middleware test's
replacement of `jsonMarshal`. -/
def mFail : HeadersMarshal := fun _ => Except.error "Marshalling failed"

/-- A marshal stub that always succeeds with an empty JSON object. -/
def mOk : HeadersMarshal := fun _ => Except.ok "\x7b\x7d"

/-- A concrete POST request used to evaluate the recorder theorems. -/
def reqDemo : HttpRequest :=
  { method := "POST", path := "/submit", rawQuery := "", host := "example.com",
    contentLength := 2, headers := [("Content-Type", ["application/json"])],
    queryParams := [], body := { content := [104, 105], readErr := false } }

/-- A concrete captured response used to evaluate the recorder theorems. -/
def rdDemo : ResponseData :=
  { status := 200, size := 5, body := [104, 101, 108, 108, 111] }

/-- The double-quote character. -/
def quoteChar : Char := Char.ofNat 34

/-- The backslash character. -/
def backslashChar : Char := Char.ofNat 92

/-- The opening curly bracket character. -/
def lbraceChar : Char := Char.ofNat 123

/-- The closing curly bracket character. -/
def rbraceChar : Char := Char.ofNat 125

/-- JSON whitespace: space, tab, newline, carriage return. -/
def isWsChar (c : Char) : Bool :=
  c = ' ' || c = Char.ofNat 9 || c = Char.ofNat 10 || c = Char.ofNat 13

/-- Drop leading JSON whitespace. -/
def skipWs (cs : List Char) : List Char := cs.dropWhile isWsChar

/-- Value of a hexadecimal digit, if the character is one. -/
def hexVal (c : Char) : Option Nat :=
  if c.isDigit then some (c.toNat - 48)
  else if 'a' ≤ c && c ≤ 'f' then some (c.toNat - 97 + 10)
  else if 'A' ≤ c && c ≤ 'F' then some (c.toNat - 65 + 10)
  else none

/-- Consume the expected characters from the front of the input. -/
def dropPrefixChars : List Char → List Char → Option (List Char)
  | [], cs => some cs
  | p :: ps, c :: cs => if c = p then dropPrefixChars ps cs else none
  | _ :: _, [] => none

/-- Parse the body of a JSON string after its opening quote, accumulating
decoded characters in reverse; handles the standard escapes. -/
def parseStringBody : Nat → List Char → List Char → Option (String × List Char)
  | 0, _, _ => none
  | Nat.succ fuel, acc, cs =>
    match cs with
    | [] => none
    | c :: rest =>
      if c = quoteChar then some (String.mk acc.reverse, rest)
      else if c = backslashChar then
        match rest with
        | [] => none
        | e :: rest2 =>
          if e = quoteChar then parseStringBody fuel (quoteChar :: acc) rest2
          else if e = backslashChar then parseStringBody fuel (backslashChar :: acc) rest2
          else if e = '/' then parseStringBody fuel ('/' :: acc) rest2
          else if e = 'n' then parseStringBody fuel (Char.ofNat 10 :: acc) rest2
          else if e = 't' then parseStringBody fuel (Char.ofNat 9 :: acc) rest2
          else if e = 'r' then parseStringBody fuel (Char.ofNat 13 :: acc) rest2
          else if e = 'b' then parseStringBody fuel (Char.ofNat 8 :: acc) rest2
          else if e = 'f' then parseStringBody fuel (Char.ofNat 12 :: acc) rest2
          else if e = 'u' then
            match rest2 with
            | h1 :: h2 :: h3 :: h4 :: rest3 =>
              match hexVal h1, hexVal h2, hexVal h3, hexVal h4 with
              | some a, some b, some c2, some d =>
                parseStringBody fuel (Char.ofNat (a * 4096 + b * 256 + c2 * 16 + d) :: acc) rest3
              | _, _, _, _ => none
            | _ => none
          else none
      else parseStringBody fuel (c :: acc) rest

/-- Characters that may appear in a JSON number lexeme. -/
def isNumChar (c : Char) : Bool :=
  c.isDigit || c = '-' || c = '+' || c = '.' || c = 'e' || c = 'E'

/-- Minimal well-formedness of a number lexeme: nonempty, starts with a
digit or minus sign, and contains at least one digit. -/
def numLexemeValid (lex : List Char) : Bool :=
  match lex with
  | [] => false
  | c :: _ => (c.isDigit || c = '-') && lex.any Char.isDigit

/-- A JSON value.  Number lexemes are kept as text so that serialization is
exact; object fields keep their textual order. -/
inductive JsonVal where
  | null
  | bool (b : Bool)
  | num (lexeme : String)
  | str (s : String)
  | arr (items : List JsonVal)
  | obj (fields : List (String × JsonVal))

mutual

/-- Parse one JSON value (model of the grammar `encoding/json` accepts when
unmarshalling into a `json.RawMessage`, which is how `isJSONBody`
classifies bodies).  Fuel-indexed recursive descent. -/
def parseValue : Nat → List Char → Option (JsonVal × List Char)
  | 0, _ => none
  | Nat.succ fuel, cs =>
    match skipWs cs with
    | [] => none
    | c :: rest =>
      if c = quoteChar then
        match parseStringBody (rest.length + 1) [] rest with
        | some sp => some (JsonVal.str sp.1, sp.2)
        | none => none
      else if c = lbraceChar then
        match parseObjItems fuel rest with
        | some fp => some (JsonVal.obj fp.1, fp.2)
        | none => none
      else if c = '[' then
        match parseArrItems fuel rest with
        | some ap => some (JsonVal.arr ap.1, ap.2)
        | none => none
      else if c = 't' then
        match dropPrefixChars ['r', 'u', 'e'] rest with
        | some r => some (JsonVal.bool true, r)
        | none => none
      else if c = 'f' then
        match dropPrefixChars ['a', 'l', 's', 'e'] rest with
        | some r => some (JsonVal.bool false, r)
        | none => none
      else if c = 'n' then
        match dropPrefixChars ['u', 'l', 'l'] rest with
        | some r => some (JsonVal.null, r)
        | none => none
      else if isNumChar c then
        if numLexemeValid ((c :: rest).takeWhile isNumChar) then
          some (JsonVal.num (String.mk ((c :: rest).takeWhile isNumChar)),
                (c :: rest).dropWhile isNumChar)
        else none
      else none

/-- Parse array items after the opening bracket. -/
def parseArrItems : Nat → List Char → Option (List JsonVal × List Char)
  | 0, _ => none
  | Nat.succ fuel, cs =>
    match skipWs cs with
    | [] => none
    | c :: rest =>
      if c = ']' then some ([], rest)
      else parseArrRest fuel (c :: rest)

/-- Parse one or more comma-separated array items up to the closing
bracket. -/
def parseArrRest : Nat → List Char → Option (List JsonVal × List Char)
  | 0, _ => none
  | Nat.succ fuel, cs =>
    match parseValue fuel cs with
    | none => none
    | some vp =>
      match skipWs vp.2 with
      | [] => none
      | c :: rest =>
        if c = ',' then
          match parseArrRest fuel rest with
          | some rp => some (vp.1 :: rp.1, rp.2)
          | none => none
        else if c = ']' then some ([vp.1], rest)
        else none

/-- Parse object fields after the opening brace. -/
def parseObjItems : Nat → List Char → Option (List (String × JsonVal) × List Char)
  | 0, _ => none
  | Nat.succ fuel, cs =>
    match skipWs cs with
    | [] => none
    | c :: rest =>
      if c = rbraceChar then some ([], rest)
      else parseObjRest fuel (c :: rest)

/-- Parse one or more comma-separated key/value fields up to the closing
brace. -/
def parseObjRest : Nat → List Char → Option (List (String × JsonVal) × List Char)
  | 0, _ => none
  | Nat.succ fuel, cs =>
    match skipWs cs with
    | [] => none
    | c :: rest =>
      if c = quoteChar then
        match parseStringBody (rest.length + 1) [] rest with
        | none => none
        | some kp =>
          match skipWs kp.2 with
          | ':' :: r2 =>
            match parseValue fuel r2 with
            | none => none
            | some vp =>
              match skipWs vp.2 with
              | [] => none
              | c2 :: r4 =>
                if c2 = ',' then
                  match parseObjRest fuel r4 with
                  | some rp => some ((kp.1, vp.1) :: rp.1, rp.2)
                  | none => none
                else if c2 = rbraceChar then some ([(kp.1, vp.1)], r4)
                else none
          | _ => none
      else none

end

/-- Parse a complete JSON document: one value with only whitespace
around it.  The fuel bound exceeds any possible recursion depth. -/
def parseJson (s : String) : Option JsonVal :=
  match parseValue (4 * s.data.length + 16) s.data with
  | some vp => if (skipWs vp.2).isEmpty then some vp.1 else none
  | none => none

/-- `isJSONBody` (main.go): `json.Unmarshal(bodyBytes, &js)` into a
`json.RawMessage` succeeds exactly when the body is a valid JSON value. -/
def isJSONBody (bodyBytes : String) : Bool := (parseJson bodyBytes).isSome

/-- The mask character `*` registered via `MaskFilledString("*")`. -/
def maskChar : Char := Char.ofNat 42

/-- A mask string of the same character count as the input. -/
def maskString (s : String) : String :=
  String.mk (List.replicate s.data.length maskChar)

mutual

/-- Modelled from the spec: the masking walk of the external
`go-json-mask` library (not part of this repository).  Walk the JSON
structure; an object key that exactly (case-sensitively) matches a
configured mask key and holds a string value has that value replaced with
mask characters of identical length to the original character count;
everything else is left unchanged apart from recursing into nested arrays
and objects. -/
def maskJsonVal (keys : List String) : JsonVal → JsonVal
  | JsonVal.arr xs => JsonVal.arr (maskJsonArr keys xs)
  | JsonVal.obj fs => JsonVal.obj (maskJsonFields keys fs)
  | v => v

/-- Masking walk over array items. -/
def maskJsonArr (keys : List String) : List JsonVal → List JsonVal
  | [] => []
  | x :: xs => maskJsonVal keys x :: maskJsonArr keys xs

/-- Masking walk over object fields. -/
def maskJsonFields (keys : List String) : List (String × JsonVal) → List (String × JsonVal)
  | [] => []
  | (k, JsonVal.str s) :: fs =>
    (if keys.contains k then (k, JsonVal.str (maskString s)) else (k, JsonVal.str s)) ::
      maskJsonFields keys fs
  | (k, v) :: fs => (k, maskJsonVal keys v) :: maskJsonFields keys fs

end

/-- Escape a character for a serialized JSON string. -/
def escapeChar (c : Char) : List Char :=
  if c = quoteChar then [backslashChar, quoteChar]
  else if c = backslashChar then [backslashChar, backslashChar]
  else if c = Char.ofNat 10 then [backslashChar, 'n']
  else if c = Char.ofNat 9 then [backslashChar, 't']
  else if c = Char.ofNat 13 then [backslashChar, 'r']
  else [c]

/-- Serialize a string with surrounding quotes and escapes. -/
def quoteJsonString (s : String) : String :=
  String.mk (quoteChar :: s.data.foldr (fun c acc => escapeChar c ++ acc) [quoteChar])

mutual

/-- Serialize a JSON value back to text (field order preserved). -/
def serializeJson : JsonVal → String
  | JsonVal.null => "null"
  | JsonVal.bool true => "true"
  | JsonVal.bool false => "false"
  | JsonVal.num lexeme => lexeme
  | JsonVal.str s => quoteJsonString s
  | JsonVal.arr xs => "[" ++ serializeArr xs ++ "]"
  | JsonVal.obj fs => "\x7b" ++ serializeFields fs ++ "\x7d"

/-- Serialize comma-separated array items. -/
def serializeArr : List JsonVal → String
  | [] => ""
  | [x] => serializeJson x
  | x :: y :: xs => serializeJson x ++ "," ++ serializeArr (y :: xs)

/-- Serialize comma-separated object fields. -/
def serializeFields : List (String × JsonVal) → String
  | [] => ""
  | [kv] => quoteJsonString kv.1 ++ ":" ++ serializeJson kv.2
  | kv :: kv2 :: fs =>
    quoteJsonString kv.1 ++ ":" ++ serializeJson kv.2 ++ "," ++ serializeFields (kv2 :: fs)

end

mutual

/-- Structural equality of JSON values. -/
def jsonEqB : JsonVal → JsonVal → Bool
  | JsonVal.null, JsonVal.null => true
  | JsonVal.bool a, JsonVal.bool b => a == b
  | JsonVal.num a, JsonVal.num b => a == b
  | JsonVal.str a, JsonVal.str b => a == b
  | JsonVal.arr xs, JsonVal.arr ys => jsonEqBArr xs ys
  | JsonVal.obj fs, JsonVal.obj gs => jsonEqBFields fs gs
  | _, _ => false

/-- Structural equality of JSON value lists. -/
def jsonEqBArr : List JsonVal → List JsonVal → Bool
  | [], [] => true
  | x :: xs, y :: ys => jsonEqB x y && jsonEqBArr xs ys
  | _, _ => false

/-- Structural equality of JSON field lists. -/
def jsonEqBFields : List (String × JsonVal) → List (String × JsonVal) → Bool
  | [], [] => true
  | (k, v) :: fs, (k2, w) :: gs => k == k2 && jsonEqB v w && jsonEqBFields fs gs
  | _, _ => false

end

mutual

/-- The spec's statement of a correct masking result, as a relation between
the original document and the masked one: identical structure and key
order, every string value directly under a matched key replaced by mask
characters of identical length to the original character count, and
everything else unchanged apart from the same relation holding inside
nested arrays and objects. -/
def maskedOk (keys : List String) : JsonVal → JsonVal → Bool
  | JsonVal.arr xs, JsonVal.arr ys => maskedOkArr keys xs ys
  | JsonVal.obj fs, JsonVal.obj gs => maskedOkFields keys fs gs
  | v, w => jsonEqB v w

/-- The masking relation over array items. -/
def maskedOkArr (keys : List String) : List JsonVal → List JsonVal → Bool
  | [], [] => true
  | x :: xs, y :: ys => maskedOk keys x y && maskedOkArr keys xs ys
  | _, _ => false

/-- The masking relation over object fields. -/
def maskedOkFields (keys : List String) : List (String × JsonVal) → List (String × JsonVal) → Bool
  | [], [] => true
  | (k, v) :: fs, (k2, w) :: gs =>
    k == k2 &&
    (if keys.contains k then maskedValOk keys v w else maskedOk keys v w) &&
    maskedOkFields keys fs gs
  | _, _ => false

/-- The masking relation for the value under a matched key: a string value
must become mask characters of identical length; any other value obeys the
ordinary masking relation. -/
def maskedValOk (keys : List String) : JsonVal → JsonVal → Bool
  | JsonVal.str s, JsonVal.str t => t == maskString s
  | v, w => maskedOk keys v w

end

/-- `maskSensitiveInfo` (main.go): build a masker over
`getConfig().MaskedNeededKeys` with the `*` fill function and run it on the
data; a body that is not a JSON document makes the library's `Mask` return
an error (the repository's own test feeds it `<html></html>` and asserts an
error), and otherwise the masked serialization is returned. -/
def maskSensitiveInfo (cfg : RevProxyConfig) (data : String) : Except String String :=
  match parseJson data with
  | none => Except.error "invalid json"
  | some j => Except.ok (serializeJson (maskJsonVal cfg.maskedNeededKeys j))

/-- Outbound `*http.Response` as `modifyResponse` sees it: the header map,
`ContentLength` (only logged), and the body stream, which either reads
fully or fails. -/
structure HttpResponse where
  headers : List (String × List String)
  contentLength : Int
  body : Except String String

/-- `http.Header.Set(k, v)`: the map entry for `k` becomes the single-value
list `[v]`; embedded as removal plus prepend with first-match lookup. -/
def setHeader (hs : List (String × List String)) (k v : String) :
    List (String × List String) :=
  (k, [v]) :: hs.filter (fun kv => !(kv.1 == k))

/-- Lookup of a header entry (first match). -/
def getHeader (hs : List (String × List String)) (k : String) : Option (List String) :=
  (hs.find? (fun kv => kv.1 == k)).map (fun kv => kv.2)

/-- `modifyResponse` (main.go): read the whole body (propagating a read
error); if it is JSON, mask it (propagating a masking error), reassign the
body to the masked text, and set `Content-Length` to
`strconv.Itoa(buf.Len())`, the byte length of the masked text; otherwise
reassign the body to the original bytes unchanged and leave the headers
alone. -/
def modifyResponse (cfg : RevProxyConfig) (r : HttpResponse) : Except String HttpResponse :=
  match r.body with
  | Except.error e => Except.error e
  | Except.ok bodyBytes =>
    if isJSONBody bodyBytes then
      match maskSensitiveInfo cfg bodyBytes with
      | Except.error e => Except.error e
      | Except.ok maskedData =>
        Except.ok { r with
          body := Except.ok maskedData,
          headers := setHeader r.headers "Content-Length" (toString maskedData.utf8ByteSize) }
    else
      Except.ok { r with body := Except.ok bodyBytes }

/-- Mask-key configuration used by the repository's tests: password and
creditCard. -/
def cfgMaskDemo : RevProxyConfig :=
  { targetUrl := "http://localhost", targetPort := "9000",
    blockedHeaders := [], blockedQueryParams := [],
    maskedNeededKeys := ["password", "creditCard"] }

/-- The redaction round-trip input from the spec and the repository test. -/
def pwInput : String := "\x7b\"password\":\"12345\",\"creditCard\":\"1234-4567-8787\"\x7d"

/-- The expected redaction round-trip output. -/
def pwOutput : String := "\x7b\"password\":\"*****\",\"creditCard\":\"**************\"\x7d"

/-- The non-JSON body from the spec and the repository test. -/
def htmlBody : String := "<html></html>"

/-- A concrete non-JSON response. -/
def respHtml : HttpResponse :=
  { headers := [("Content-Type", ["text/html"])], contentLength := 13,
    body := Except.ok htmlBody }

/-- A JSON body whose masked value replaces a multi-byte UTF-8 character,
so the mask characters differ in byte length from the original content. -/
def utfBody : String := "\x7b\"password\":\"héllo\"\x7d"

/-- A concrete JSON response with multi-byte content. -/
def respUtf : HttpResponse :=
  { headers := [], contentLength := 21, body := Except.ok utfBody }

/-- A policy with one blocked header and one blocked query parameter. -/
def cfgGateDemo : RevProxyConfig :=
  { targetUrl := "http://localhost", targetPort := "9000",
    blockedHeaders := ["X-Api-Version"], blockedQueryParams := ["token"],
    maskedNeededKeys := [] }

/-- A GET request carrying the blocked header of `cfgGateDemo`. -/
def reqBlockedDemo : HttpRequest :=
  { method := "GET", path := "/info", rawQuery := "a=1", host := "proxy.local",
    contentLength := 0, headers := [("X-Api-Version", ["2"])],
    queryParams := [("a", ["1"])], body := { content := [], readErr := false } }

/-- A GET request with given header and parameter names. -/
def reqVals1 : HttpRequest :=
  { method := "GET", path := "/a", rawQuery := "token=1", host := "h1",
    contentLength := 1, headers := [("X-Api-Version", ["1"])],
    queryParams := [("token", ["1"])], body := { content := [1], readErr := false } }

/-- A GET request with the same header and parameter names as `reqVals1` but
different values, path, host and body. -/
def reqVals2 : HttpRequest :=
  { method := "GET", path := "/b", rawQuery := "token=9", host := "h2",
    contentLength := 2, headers := [("X-Api-Version", ["9"])],
    queryParams := [("token", ["9"])], body := { content := [2, 3], readErr := false } }

theorem anyHeaderBlocked_eq_any (cfg : RevProxyConfig) (l : List (String × List String)) :
    anyHeaderBlocked cfg l = (l.map Prod.fst).any cfg.IsHeaderBlocked := by
  induction l with
  | nil => rfl
  | cons kv rest ih =>
    obtain ⟨name, vals⟩ := kv
    simp only [anyHeaderBlocked, List.map_cons, List.any_cons]
    by_cases h : cfg.IsHeaderBlocked name
    · simp [h]
    · simp [h, ih]

theorem anyQueryParamBlocked_eq_any (cfg : RevProxyConfig) (l : List (String × List String)) :
    anyQueryParamBlocked cfg l = (l.map Prod.fst).any cfg.IsQueryParamBlocked := by
  induction l with
  | nil => rfl
  | cons kv rest ih =>
    obtain ⟨name, vals⟩ := kv
    simp only [anyQueryParamBlocked, List.map_cons, List.any_cons]
    by_cases h : cfg.IsQueryParamBlocked name
    · simp [h]
    · simp [h, ih]

theorem any_fst_eq_map_any (p : String → Bool) (l : List (String × List String)) :
    l.any (fun kv => p kv.1) = (l.map Prod.fst).any p := by
  induction l with
  | nil => rfl
  | cons kv rest ih => simp [List.any_cons, ih]

theorem shouldBlockRequest_eq_or (cfg : RevProxyConfig) (req : HttpRequest) :
    shouldBlockRequest cfg req =
      (req.headers.any (fun kv => cfg.IsHeaderBlocked kv.1) ||
       req.queryParams.any (fun kv => cfg.IsQueryParamBlocked kv.1)) := by
  have h1 := any_fst_eq_map_any cfg.IsHeaderBlocked req.headers
  have h2 := any_fst_eq_map_any cfg.IsQueryParamBlocked req.queryParams
  rw [shouldBlockRequest, anyHeaderBlocked_eq_any, anyQueryParamBlocked_eq_any, h1, h2]
  cases (req.headers.map Prod.fst).any cfg.IsHeaderBlocked <;>
    cases (req.queryParams.map Prod.fst).any cfg.IsQueryParamBlocked <;> rfl

/-- Claim C2: the gate rejects a request if and only if its method is GET and
some header name is in `blockedHeaders` or some query-parameter name is in
`blockedQueryParams`; the decision is the boolean OR of the two membership
tests, and non-GET methods are never gated. -/
theorem gate_decision_iff (cfg : RevProxyConfig) (targetHost : String) (req : HttpRequest) :
    isBlockedOutcome (serveHTTP cfg targetHost req) =
      ((req.method == "GET") &&
       (req.headers.any (fun kv => cfg.IsHeaderBlocked kv.1) ||
        req.queryParams.any (fun kv => cfg.IsQueryParamBlocked kv.1))) := by
  rw [serveHTTP]
  by_cases h : (req.method == "GET" && shouldBlockRequest cfg req) = true
  · rw [if_pos h]
    rw [shouldBlockRequest_eq_or] at h
    exact h.symm
  · rw [if_neg h]
    rw [shouldBlockRequest_eq_or] at h
    simp only [Bool.not_eq_true] at h
    exact h.symm

theorem runOps_statusCalls_status (ops : List WriterOp) (s : LrwState) :
    (runOps s ops).underlying.statusCalls = s.underlying.statusCalls ++ opsStatusCodes ops ∧
    (runOps s ops).responseData.status = lastOr s.responseData.status (opsStatusCodes ops) := by
  induction ops generalizing s with
  | nil => simp [runOps, opsStatusCodes, lastOr]
  | cons op ops ih =>
    cases op with
    | writeHeader c =>
      obtain ⟨ih1, ih2⟩ := ih (lrwWriteHeader s c)
      refine ⟨?_, ?_⟩
      · rw [runOps, ih1]
        simp [lrwWriteHeader, opsStatusCodes]
      · rw [runOps, ih2]
        simp [lrwWriteHeader, opsStatusCodes, lastOr]
    | write b n =>
      obtain ⟨ih1, ih2⟩ := ih (lrwWrite s b n).1
      refine ⟨?_, ?_⟩
      · rw [runOps, ih1]
        simp [lrwWrite, underlyingWrite, opsStatusCodes]
      · rw [runOps, ih2]
        simp [lrwWrite, underlyingWrite, opsStatusCodes]

/-- Claim C3 (counterexample): calling `WriteHeader` with 200 and then 404
leaves 404, not the first call's 200, in the recorded status. -/
theorem writeHeader_first_call_does_not_win :
    (runOps initLrw [WriterOp.writeHeader 200, WriterOp.writeHeader 404]).responseData.status = 404 ∧
    (runOps initLrw [WriterOp.writeHeader 200, WriterOp.writeHeader 404]).responseData.status ≠ 200 := by
  constructor
  · rfl
  · decide

/-- Claim C3 (amended): when `WriteHeader` is called more than once, the
recorded status code is the one from the LAST call (each call overwrites the
field), and every call is forwarded unchanged, in order, to the real
writer. -/
theorem writeHeader_last_call_wins (s : LrwState) (ops : List WriterOp) :
    (runOps s ops).underlying.statusCalls = s.underlying.statusCalls ++ opsStatusCodes ops ∧
    (runOps s ops).responseData.status = lastOr s.responseData.status (opsStatusCodes ops) :=
  runOps_statusCalls_status ops s

theorem opsChunks_eq_delivered_of_complete (ops : List WriterOp)
    (h : opsAllComplete ops = true) : opsChunks ops = opsDelivered ops := by
  induction ops with
  | nil => rfl
  | cons op ops ih =>
    cases op with
    | writeHeader c =>
      rw [opsAllComplete] at h
      rw [opsChunks, opsDelivered, ih h]
    | write b n =>
      rw [opsAllComplete, Bool.and_eq_true, beq_iff_eq] at h
      obtain ⟨hn, hrest⟩ := h
      rw [opsChunks, opsDelivered, ih hrest, hn, List.take_length]

theorem runOps_size_body_delivered (ops : List WriterOp) (s : LrwState) :
    (runOps s ops).responseData.size = s.responseData.size + sumReported ops ∧
    (runOps s ops).responseData.body = s.responseData.body ++ opsChunks ops ∧
    (runOps s ops).underlying.delivered = s.underlying.delivered ++ opsDelivered ops := by
  induction ops generalizing s with
  | nil => simp [runOps, sumReported, opsChunks, opsDelivered]
  | cons op ops ih =>
    cases op with
    | writeHeader c =>
      obtain ⟨ih1, ih2, ih3⟩ := ih (lrwWriteHeader s c)
      refine ⟨?_, ?_, ?_⟩
      · rw [runOps, ih1]; simp [lrwWriteHeader, sumReported]
      · rw [runOps, ih2]; simp [lrwWriteHeader, opsChunks]
      · rw [runOps, ih3]; simp [lrwWriteHeader, opsDelivered]
    | write b n =>
      obtain ⟨ih1, ih2, ih3⟩ := ih (lrwWrite s b n).1
      refine ⟨?_, ?_, ?_⟩
      · rw [runOps, ih1]
        simp [lrwWrite, underlyingWrite, sumReported, Nat.add_assoc]
      · rw [runOps, ih2]
        simp [lrwWrite, underlyingWrite, opsChunks]
      · rw [runOps, ih3]
        simp [lrwWrite, underlyingWrite, opsDelivered]

/-- Claim C4 (counterexample): a single write of the 3-byte chunk
`[1, 2, 3]` for which the underlying writer reports only 2 bytes written.
The recorded size is the reported 2, but the capture buffer holds all 3
input bytes while the caller only received 2 — the buffer diverges from
what was delivered. -/
theorem capture_buffer_diverges_on_short_write :
    (runOps initLrw [WriterOp.write [1, 2, 3] 2]).responseData.size = 2 ∧
    (runOps initLrw [WriterOp.write [1, 2, 3] 2]).responseData.body = [1, 2, 3] ∧
    (runOps initLrw [WriterOp.write [1, 2, 3] 2]).underlying.delivered = [1, 2] ∧
    (runOps initLrw [WriterOp.write [1, 2, 3] 2]).responseData.body ≠
      (runOps initLrw [WriterOp.write [1, 2, 3] 2]).underlying.delivered := by
  refine ⟨rfl, rfl, rfl, by decide⟩

/-- Claim C4 (amended): for every sequence of writes, the recorded size
equals the sum of the byte counts the underlying writer reported, and the
capture buffer holds the concatenation of the full byte slices passed to
`Write`; that concatenation coincides with the bytes actually delivered to
the original writer whenever every write is complete (the reported count
equals the chunk length), but under short writes the buffer may contain
bytes the caller never received. -/
theorem recorder_size_and_buffer (s : LrwState) (ops : List WriterOp) :
    (runOps s ops).responseData.size = s.responseData.size + sumReported ops ∧
    (runOps s ops).responseData.body = s.responseData.body ++ opsChunks ops ∧
    (runOps s ops).underlying.delivered = s.underlying.delivered ++ opsDelivered ops ∧
    (opsAllComplete ops = true → opsChunks ops = opsDelivered ops) := by
  obtain ⟨h1, h2, h3⟩ := runOps_size_body_delivered ops s
  exact ⟨h1, h2, h3, opsChunks_eq_delivered_of_complete ops⟩

/-- Witness for the amended C4 theorem on a concrete complete-write run. -/
theorem recorder_size_and_buffer_witness :
    opsAllComplete [WriterOp.write [10, 20] 2, WriterOp.write [30] 1] = true ∧
    (runOps initLrw [WriterOp.write [10, 20] 2, WriterOp.write [30] 1]).responseData.size =
      0 + sumReported [WriterOp.write [10, 20] 2, WriterOp.write [30] 1] ∧
    opsChunks [WriterOp.write [10, 20] 2, WriterOp.write [30] 1] =
      opsDelivered [WriterOp.write [10, 20] 2, WriterOp.write [30] 1] :=
  ⟨by decide,
   (recorder_size_and_buffer initLrw [WriterOp.write [10, 20] 2, WriterOp.write [30] 1]).1,
   (recorder_size_and_buffer initLrw [WriterOp.write [10, 20] 2, WriterOp.write [30] 1]).2.2.2
     (by decide)⟩

theorem composeRequestHeaders_spliceBody (req : HttpRequest) :
    composeRequestHeaders (spliceBody req) = composeRequestHeaders req := rfl

/-- Claim C5: when the request body reads without error, the recorder's
captured body (the one placed in the request log record) equals exactly what
a direct read of the unwrapped body would produce, and the downstream
handler subsequently reads the identical, complete original content from
the spliced body. -/
theorem recorder_preserves_request_body (marshal : HeadersMarshal) (req : HttpRequest)
    (h : req.body.readErr = false) :
    (recordRequest marshal req).2.body.content = req.body.content ∧
    (recordRequest marshal req).2.body.readErr = false ∧
    ∀ m p q hj b, LogEvent.requestRecord m p q hj b ∈ (recordRequest marshal req).1 →
      b = req.body.content := by
  rw [recordRequest]
  rw [if_neg (by simp [h])]
  cases hm : marshal (composeRequestHeaders (spliceBody req)) with
  | error e =>
    refine ⟨rfl, rfl, ?_⟩
    intro m p q hj b hb
    simp at hb
  | ok hj0 =>
    refine ⟨rfl, rfl, ?_⟩
    intro m p q hj b hb
    simp only [List.mem_singleton, LogEvent.requestRecord.injEq] at hb
    exact hb.2.2.2.2

/-- Witness for the C5 theorem on a concrete request. -/
theorem recorder_preserves_request_body_witness :
    reqDemo.body.readErr = false ∧
    (recordRequest mOk reqDemo).2.body.content = reqDemo.body.content :=
  ⟨rfl, (recorder_preserves_request_body mOk reqDemo rfl).1⟩

/-- Claim C9 (counterexample): for a request whose headers fail to
serialize (`mFail` refuses every input, as the repository's own test stubs
`jsonMarshal`), no request-received record is emitted at all, so the
remaining log fields of that record are NOT still emitted. -/
theorem request_record_skipped_on_marshal_failure :
    mFail (composeRequestHeaders reqDemo) = Except.error "Marshalling failed" ∧
    reqDemo.body.readErr = false ∧
    hasRequestRecord (recordRequest mFail reqDemo).1 = false := by
  refine ⟨rfl, rfl, rfl⟩

/-- Claim C9 (amended): serialization failure is never fatal and processing
continues, but the two sides differ.  Request side: the failure is logged as
its own error event and the whole request record is skipped (the downstream
handler still receives the intact body).  Response side: the failure is
logged as its own error event and the completion record is still emitted
with an empty headers field and all other fields intact. -/
theorem serialization_failure_is_nonfatal (marshal : HeadersMarshal) (req : HttpRequest)
    (e : String) (h1 : req.body.readErr = false)
    (h2 : marshal (composeRequestHeaders req) = Except.error e) :
    (recordRequest marshal req).1 = [LogEvent.errorEvent "jsonMarshal header failed"] ∧
    (recordRequest marshal req).2.body.content = req.body.content ∧
    (recordRequest marshal req).2.body.readErr = false ∧
    ∀ (hdrs : List (String × List String)) (rd : ResponseData) (dur : Int) (e2 : String),
      marshal hdrs = Except.error e2 →
      recordResponse marshal hdrs rd dur =
        [LogEvent.errorEvent "jsonMarshal header failed",
         LogEvent.responseRecord rd.status rd.size dur "" rd.body] := by
  refine ⟨?_, ?_, ?_, ?_⟩
  · rw [recordRequest]
    rw [if_neg (by simp [h1])]
    rw [composeRequestHeaders_spliceBody, h2]
  · rw [recordRequest]
    rw [if_neg (by simp [h1])]
    rw [composeRequestHeaders_spliceBody, h2]
    rfl
  · rw [recordRequest]
    rw [if_neg (by simp [h1])]
    rw [composeRequestHeaders_spliceBody, h2]
    rfl
  · intro hdrs rd dur e2 hm
    rw [recordResponse, hm]

/-- Witness for the amended C9 theorem on concrete inputs. -/
theorem serialization_failure_is_nonfatal_witness :
    (recordRequest mFail reqDemo).1 = [LogEvent.errorEvent "jsonMarshal header failed"] ∧
    recordResponse mFail [] rdDemo 7 =
      [LogEvent.errorEvent "jsonMarshal header failed",
       LogEvent.responseRecord rdDemo.status rdDemo.size 7 "" rdDemo.body] :=
  ⟨(serialization_failure_is_nonfatal mFail reqDemo "Marshalling failed" rfl rfl).1,
   (serialization_failure_is_nonfatal mFail reqDemo "Marshalling failed" rfl rfl).2.2.2
     [] rdDemo 7 "Marshalling failed" rfl⟩

mutual

theorem jsonEqB_refl : ∀ j : JsonVal, jsonEqB j j = true
  | JsonVal.null => rfl
  | JsonVal.bool b => by simp [jsonEqB]
  | JsonVal.num a => by simp [jsonEqB]
  | JsonVal.str a => by simp [jsonEqB]
  | JsonVal.arr xs => by
    rw [jsonEqB]
    exact jsonEqBArr_refl xs
  | JsonVal.obj fs => by
    rw [jsonEqB]
    exact jsonEqBFields_refl fs

theorem jsonEqBArr_refl : ∀ xs : List JsonVal, jsonEqBArr xs xs = true
  | [] => rfl
  | x :: xs => by
    rw [jsonEqBArr, jsonEqB_refl x, jsonEqBArr_refl xs]
    rfl

theorem jsonEqBFields_refl : ∀ fs : List (String × JsonVal), jsonEqBFields fs fs = true
  | [] => rfl
  | (k, v) :: fs => by
    rw [jsonEqBFields, jsonEqB_refl v, jsonEqBFields_refl fs]
    simp

end

mutual

theorem maskedOk_mask : ∀ (keys : List String) (j : JsonVal),
    maskedOk keys j (maskJsonVal keys j) = true
  | keys, JsonVal.null => by
    simp [maskJsonVal, maskedOk, jsonEqB]
  | keys, JsonVal.bool b => by
    simp [maskJsonVal, maskedOk, jsonEqB]
  | keys, JsonVal.num a => by
    simp [maskJsonVal, maskedOk, jsonEqB]
  | keys, JsonVal.str s => by
    simp [maskJsonVal, maskedOk, jsonEqB]
  | keys, JsonVal.arr xs => by
    simp only [maskJsonVal, maskedOk]
    exact maskedOkArr_mask keys xs
  | keys, JsonVal.obj fs => by
    simp only [maskJsonVal, maskedOk]
    exact maskedOkFields_mask keys fs
termination_by keys j => sizeOf j

theorem maskedOkArr_mask : ∀ (keys : List String) (xs : List JsonVal),
    maskedOkArr keys xs (maskJsonArr keys xs) = true
  | keys, [] => by simp [maskJsonArr, maskedOkArr]
  | keys, x :: xs => by
    simp [maskJsonArr, maskedOkArr, maskedOk_mask keys x, maskedOkArr_mask keys xs]
termination_by keys xs => sizeOf xs

theorem maskedOkFields_mask : ∀ (keys : List String) (fs : List (String × JsonVal)),
    maskedOkFields keys fs (maskJsonFields keys fs) = true
  | keys, [] => by simp [maskJsonFields, maskedOkFields]
  | keys, (k, JsonVal.str s) :: fs => by
    by_cases hk : k ∈ keys <;>
      simp [maskJsonFields, maskedOkFields, maskedValOk, hk, maskedOk, jsonEqB,
        maskedOkFields_mask keys fs]
  | keys, (k, JsonVal.null) :: fs => by
    by_cases hk : k ∈ keys <;>
      simp [maskJsonFields, maskJsonVal, maskedOkFields, maskedValOk, hk, maskedOk, jsonEqB,
        maskedOkFields_mask keys fs]
  | keys, (k, JsonVal.bool b) :: fs => by
    by_cases hk : k ∈ keys <;>
      simp [maskJsonFields, maskJsonVal, maskedOkFields, maskedValOk, hk, maskedOk, jsonEqB,
        maskedOkFields_mask keys fs]
  | keys, (k, JsonVal.num a) :: fs => by
    by_cases hk : k ∈ keys <;>
      simp [maskJsonFields, maskJsonVal, maskedOkFields, maskedValOk, hk, maskedOk, jsonEqB,
        maskedOkFields_mask keys fs]
  | keys, (k, JsonVal.arr xs) :: fs => by
    by_cases hk : k ∈ keys <;>
      simp [maskJsonFields, maskJsonVal, maskedOkFields, maskedValOk, hk, maskedOk,
        maskedOkArr_mask keys xs, maskedOkFields_mask keys fs]
  | keys, (k, JsonVal.obj gs) :: fs => by
    by_cases hk : k ∈ keys <;>
      simp [maskJsonFields, maskJsonVal, maskedOkFields, maskedValOk, hk, maskedOk,
        maskedOkFields_mask keys gs, maskedOkFields_mask keys fs]
termination_by keys fs => sizeOf fs

end

/-- Claim C7: in every JSON document, each object key (top-level or nested)
whose name exactly matches a configured masked key has its string value
replaced by mask characters of identical length to the original character
count, while structure and all other values are unchanged (`maskedOk` is
the spec-side statement of that relation); in particular the round trip on
the repository's own example produces exactly the expected masked text. -/
theorem masking_replaces_matched_string_values :
    (∀ (keys : List String) (j : JsonVal), maskedOk keys j (maskJsonVal keys j) = true) ∧
    maskSensitiveInfo cfgMaskDemo pwInput = Except.ok pwOutput :=
  ⟨maskedOk_mask, by rfl⟩

/-- Claim C6: a response body that fails to parse as JSON makes
`modifyResponse` return without error, with the body passed onward
byte-for-byte identical and every header, in particular `Content-Length`,
untouched. -/
theorem nonjson_body_passthrough (cfg : RevProxyConfig) (r : HttpResponse)
    (bodyBytes : String) (h1 : r.body = Except.ok bodyBytes)
    (h2 : isJSONBody bodyBytes = false) :
    modifyResponse cfg r = Except.ok r := by
  simp only [modifyResponse, h1, h2, Bool.false_eq_true, if_false]
  rw [← h1]

/-- Witness for the C6 theorem on the `<html></html>` body. -/
theorem nonjson_body_passthrough_witness :
    respHtml.body = Except.ok htmlBody ∧ isJSONBody htmlBody = false ∧
    modifyResponse cfgMaskDemo respHtml = Except.ok respHtml :=
  ⟨rfl, by rfl, nonjson_body_passthrough cfgMaskDemo respHtml htmlBody rfl (by rfl)⟩

theorem getHeader_setHeader (hs : List (String × List String)) (k v : String) :
    getHeader (setHeader hs k v) k = some [v] := by
  simp [getHeader, setHeader, List.find?_cons_of_pos]

/-- Claim C8: whenever masking applies (the body is JSON), the outgoing
`Content-Length` header is set to exactly the byte length of the serialized
masked body. -/
theorem masking_updates_content_length (cfg : RevProxyConfig) (r : HttpResponse)
    (bodyBytes : String) (h1 : r.body = Except.ok bodyBytes)
    (h2 : isJSONBody bodyBytes = true) :
    ∃ r2 maskedData,
      modifyResponse cfg r = Except.ok r2 ∧
      r2.body = Except.ok maskedData ∧
      getHeader r2.headers "Content-Length" = some [toString maskedData.utf8ByteSize] := by
  have hj : ∃ j, parseJson bodyBytes = some j := by
    rw [isJSONBody] at h2
    exact Option.isSome_iff_exists.mp h2
  obtain ⟨j, hj⟩ := hj
  have hmask : maskSensitiveInfo cfg bodyBytes =
      Except.ok (serializeJson (maskJsonVal cfg.maskedNeededKeys j)) := by
    rw [maskSensitiveInfo, hj]
  have hmod : modifyResponse cfg r = Except.ok { r with
      body := Except.ok (serializeJson (maskJsonVal cfg.maskedNeededKeys j)),
      headers := setHeader r.headers "Content-Length"
        (toString (serializeJson (maskJsonVal cfg.maskedNeededKeys j)).utf8ByteSize) } := by
    simp only [modifyResponse, h1, h2, if_true, hmask]
  exact ⟨_, _, hmod, rfl, getHeader_setHeader _ _ _⟩

/-- Witness for the C8 theorem on a body whose masked value has a different
UTF-8 byte length than the original. -/
theorem masking_updates_content_length_witness :
    respUtf.body = Except.ok utfBody ∧ isJSONBody utfBody = true ∧
    (∃ r2 maskedData,
      modifyResponse cfgMaskDemo respUtf = Except.ok r2 ∧
      r2.body = Except.ok maskedData ∧
      getHeader r2.headers "Content-Length" = some [toString maskedData.utf8ByteSize]) :=
  ⟨rfl, by rfl, masking_updates_content_length cfgMaskDemo respUtf utfBody rfl (by rfl)⟩

/-- Claim C1 (counterexample): on a blocked GET request the proxy writes
status 403 and body `"Request blocked by proxy rules\n"` — `http.Error`
appends a newline, so the body is not equal to the fixed message itself. -/
theorem blocked_body_has_trailing_newline :
    serveHTTP cfgGateDemo "origin.local" reqBlockedDemo =
      ServeOutcome.blocked 403 (blockedMessage ++ "\n") ∧
    blockedMessage ++ "\n" ≠ blockedMessage := by
  constructor
  · rfl
  · decide

/-- Claim C1 (amended): every GET request that the gate blocks receives
status 403 with body equal to the fixed message followed by a newline (the
newline is appended by `http.Error`), and the forwarding engine is never
invoked for it. -/
theorem blocked_get_gets_403_and_no_forward (cfg : RevProxyConfig) (host : String)
    (req : HttpRequest) (hm : req.method = "GET")
    (hb : (req.headers.any (fun kv => cfg.IsHeaderBlocked kv.1) ||
           req.queryParams.any (fun kv => cfg.IsQueryParamBlocked kv.1)) = true) :
    serveHTTP cfg host req = ServeOutcome.blocked 403 (blockedMessage ++ "\n") ∧
    ∀ h2, serveHTTP cfg host req ≠ ServeOutcome.forwarded h2 := by
  have hcond : (req.method == "GET" && shouldBlockRequest cfg req) = true := by
    rw [shouldBlockRequest_eq_or, hm, hb]
    rfl
  constructor
  · rw [serveHTTP, if_pos (by simp [hcond])]
    rfl
  · intro h2
    rw [serveHTTP, if_pos (by simp [hcond])]
    simp [httpError]

/-- Witness for the amended C1 theorem on a concrete blocked request. -/
theorem blocked_get_gets_403_and_no_forward_witness :
    reqBlockedDemo.method = "GET" ∧
    (reqBlockedDemo.headers.any (fun kv => cfgGateDemo.IsHeaderBlocked kv.1) ||
     reqBlockedDemo.queryParams.any (fun kv => cfgGateDemo.IsQueryParamBlocked kv.1)) = true ∧
    serveHTTP cfgGateDemo "origin.local" reqBlockedDemo =
      ServeOutcome.blocked 403 (blockedMessage ++ "\n") :=
  ⟨rfl, by decide,
   (blocked_get_gets_403_and_no_forward cfgGateDemo "origin.local" reqBlockedDemo rfl
     (by decide)).1⟩

/-- Claim C10: the gate decision depends only on the method and the sets of
header names and query-parameter names — two requests agreeing on those,
whatever their header values, query values, path, host or body, get the
same decision. -/
theorem gate_depends_only_on_names (cfg : RevProxyConfig) (r1 r2 : HttpRequest)
    (hm : r1.method = r2.method)
    (hh : ∀ s, s ∈ r1.headers.map Prod.fst ↔ s ∈ r2.headers.map Prod.fst)
    (hq : ∀ s, s ∈ r1.queryParams.map Prod.fst ↔ s ∈ r2.queryParams.map Prod.fst) :
    shouldBlockRequest cfg r1 = shouldBlockRequest cfg r2 := by
  have anyc : ∀ (p : String → Bool) (m1 m2 : List String),
      (∀ s, s ∈ m1 ↔ s ∈ m2) → m1.any p = m2.any p := by
    intro p m1 m2 h
    cases h1 : m1.any p <;> cases h2 : m2.any p
    · rfl
    · rw [List.any_eq_true] at h2
      obtain ⟨x, hx, hp⟩ := h2
      have : m1.any p = true := List.any_eq_true.mpr ⟨x, (h x).mpr hx, hp⟩
      rw [h1] at this
      exact absurd this (by simp)
    · rw [List.any_eq_true] at h1
      obtain ⟨x, hx, hp⟩ := h1
      have : m2.any p = true := List.any_eq_true.mpr ⟨x, (h x).mp hx, hp⟩
      rw [h2] at this
      exact absurd this (by simp)
    · rfl
  rw [shouldBlockRequest_eq_or, shouldBlockRequest_eq_or,
    any_fst_eq_map_any, any_fst_eq_map_any, any_fst_eq_map_any, any_fst_eq_map_any,
    anyc cfg.IsHeaderBlocked _ _ hh, anyc cfg.IsQueryParamBlocked _ _ hq]

/-- Witness for the C10 theorem: two requests differing in header values,
query values, path, host and body but with equal name sets. -/
theorem gate_depends_only_on_names_witness :
    reqVals1.path ≠ reqVals2.path ∧
    shouldBlockRequest cfgGateDemo reqVals1 = shouldBlockRequest cfgGateDemo reqVals2 :=
  ⟨by decide,
   gate_depends_only_on_names cfgGateDemo reqVals1 reqVals2 rfl
     (fun s => Iff.rfl) (fun s => Iff.rfl)⟩
